import Mathlib

/-!
Shallow embedding of the spectraMissionControl docking core
(src/backend/docking_rules.py, docking_validation.py, docking_logic.py,
and the schedule-clearing operation of app.py), with theorems checking
the natural-language specification against it.

Modelling conventions:
  - Python `datetime` values are totally ordered; they are embedded as `Int`
    via a field-lexicographic encoding (see `parse_time`), which preserves
    exactly the comparisons the code performs.
  - Python `dict` state (`DOCKING_PORTS`) is an association list from port
    identifier to the list of committed missions; `PORT_RULES` likewise.
  - A Python function that can raise (KeyError on a missing dict key,
    ValueError from `datetime.fromisoformat`) is embedded returning
    `Option`, with `none` for the raised exception.  In
    `process_docking_request` every raise point occurs before the single
    mutation (`assign_port`), so the exceptional outcome leaves the store
    untouched, which the embedding reflects by carrying the state only in
    the `some` result.
-/

/-- Shape of one committed mission record as stored in `DOCKING_PORTS`
(docking_rules.py): exactly the four fields mission_id, start_time,
end_time, team. -/
structure StoredMission where
  mission_id : String
  start_time : Int
  end_time : Int
  team : String
deriving Repr, DecidableEq

/-- One entry of the static `PORT_RULES` table (docking_rules.py): the
ordered compatibility list and the refueling-capability flag. -/
structure PortRule where
  can_dock : List String
  refuel : Bool
deriving Repr, DecidableEq

/-- The static `PORT_RULES` configuration of docking_rules.py, verbatim. -/
def PORT_RULES : List (String × PortRule) :=
  [("A1", ⟨["A1", "B1"], true⟩),
   ("A2", ⟨["A2", "B1"], false⟩),
   ("B1", ⟨["B1"], false⟩)]

/-- Dictionary lookup `PORT_RULES[p]`; `none` models the KeyError raised
for an unconfigured port identifier. -/
def lookupRule (p : String) : Option PortRule :=
  (PORT_RULES.find? (fun e => e.1 == p)).map (fun e => e.2)

/-- The mutable schedule `DOCKING_PORTS`: a mapping from port identifier
to the ordered list of committed missions, embedded as an association
list threaded through the operations as explicit state. -/
abbrev Schedule := List (String × List StoredMission)

/-- The initial `DOCKING_PORTS` value of docking_rules.py: every
configured port maps to the empty list. -/
def DOCKING_PORTS_init : Schedule :=
  [("A1", []), ("A2", []), ("B1", [])]

/-- Dictionary lookup `DOCKING_PORTS[p]`; `none` models the KeyError for
an identifier that is not a key of the store. -/
def lookupPort (st : Schedule) (p : String) : Option (List StoredMission) :=
  (st.find? (fun e => e.1 == p)).map (fun e => e.2)

/-- The mutation `DOCKING_PORTS[port].append(record)` performed by
`assign_port` in docking_logic.py: the record is appended to the
sequence of the named port and every other entry is unchanged. -/
def assign_port (st : Schedule) (port : String) (m : StoredMission) : Schedule :=
  st.map (fun e => if e.1 == port then (e.1, e.2 ++ [m]) else e)

/-- The clearing loop of app.py `clear_schedule`:
`for port in DOCKING_PORTS: DOCKING_PORTS[port] = []` — every key is
kept and every sequence is reset to empty. -/
def clear_schedule (st : Schedule) : Schedule :=
  st.map (fun e => (e.1, ([] : List StoredMission)))

/-- Two-digit decimal parse used by `parse_time`. -/
def digit2 (a b : Char) : Option Nat :=
  if a.isDigit && b.isDigit then some ((a.toNat - 48) * 10 + (b.toNat - 48))
  else none

/-- Field-lexicographic integer encoding of a `datetime`: preserves the
order of datetime comparison for in-range fields. -/
def encodeTime (y mo d h mi s : Nat) : Int :=
  Int.ofNat ((((((y * 13 + mo) * 32 + d) * 24 + h) * 60 + mi) * 60) + s)

/-- Embedding of docking_validation.py `parse_time`:
`datetime.fromisoformat(tstr.replace("Z", ""))`.  Every occurrence of
"Z" is removed (Python `str.replace` with an empty replacement deletes
every occurrence of the single character, hence the filter), then the
canonical timestamp shape YYYY-MM-DDTHH:MM:SS used throughout the system
is parsed with the field-range checks `fromisoformat` performs; a string
not of this shape yields `none`, modelling the ValueError raised on a
malformed timestamp. -/
def parse_time (tstr : String) : Option Int :=
  match tstr.toList.filter (fun c => c != 'Z') with
  | [y1, y2, y3, y4, '-', m1, m2, '-', d1, d2, 'T',
     h1, h2, ':', n1, n2, ':', s1, s2] =>
    match digit2 y1 y2, digit2 y3 y4, digit2 m1 m2, digit2 d1 d2,
          digit2 h1 h2, digit2 n1 n2, digit2 s1 s2 with
    | some yh, some yl, some mo, some d, some h, some mi, some s =>
      if 1 ≤ mo ∧ mo ≤ 12 ∧ 1 ≤ d ∧ d ≤ 31 ∧ h ≤ 23 ∧ mi ≤ 59 ∧ s ≤ 59 then
        some (encodeTime (yh * 100 + yl) mo d h mi s)
      else none
    | _, _, _, _, _, _, _ => none
  | _ => none

/-- Embedding of docking_validation.py `is_port_free`: walks the port's
committed missions and reports a conflict via the half-open test
`not (end <= mission_start or start >= mission_end)`; the early-return
loop is equivalently the conjunction over the list.  `none` models the
KeyError on `DOCKING_PORTS[port]` for an unknown port. -/
def is_port_free (st : Schedule) (port : String) (start stop : Int) : Option Bool :=
  (lookupPort st port).map (fun missions =>
    missions.all (fun m =>
      decide (stop ≤ m.start_time) || decide (start ≥ m.end_time)))

/-- Embedding of docking_validation.py `can_refuel`: when refueling is
required it reads `PORT_RULES[requested_port]["refuel"]` (KeyError →
`none` for an unconfigured port); otherwise it returns True without
touching the table. -/
def can_refuel (requested_port : String) (refueling_required : Bool) : Option Bool :=
  if refueling_required then (lookupRule requested_port).map (fun r => r.refuel)
  else some true

/-- The incoming mission record (§6 of the spec; the dict consumed by
`process_docking_request`).  `refueling_required` is optional because the
code reads it with `mission.get("refueling_required", False)`. -/
structure MissionRequest where
  mission_id : String
  requested_port : String
  start_time : String
  end_time : String
  team : String
  refueling_required : Option Bool
deriving Repr, DecidableEq

/-- Result dictionary of `process_docking_request`. -/
inductive DockResult where
  | accepted (assigned_port : String)
  | rejected (reason : String)
deriving Repr, DecidableEq

/-- The candidate loop of docking_logic.py `process_docking_request`:
first port of the list for which `is_port_free` holds, scanning in list
order; `none` propagates a KeyError raised inside the loop, `some none`
is loop exhaustion with no free port. -/
def firstFree (st : Schedule) (start stop : Int) :
    List String → Option (Option String)
  | [] => some none
  | p :: rest =>
    match is_port_free st p start stop with
    | none => none
    | some true => some (some p)
    | some false => firstFree st start stop rest

/-- Embedding of docking_logic.py `process_docking_request`, step for
step: parse both timestamps, read the refueling flag with default False,
check `can_refuel` first, then scan `PORT_RULES[requested_port]["can_dock"]`
for the first free port; on success build the four-field stored record
and append it via `assign_port`, otherwise return the rejection dict.
The returned pair carries the store after the call; `none` models an
uncaught exception (all raise points precede the mutation, so the store
is unchanged in that case). -/
def process_docking_request (st : Schedule) (mission : MissionRequest) :
    Option (DockResult × Schedule) :=
  match parse_time mission.start_time with
  | none => none
  | some start =>
    match parse_time mission.end_time with
    | none => none
    | some stop =>
      match can_refuel mission.requested_port (mission.refueling_required.getD false) with
      | none => none
      | some false => some (.rejected "Refueling only available at A1", st)
      | some true =>
        match lookupRule mission.requested_port with
        | none => none
        | some rule =>
          match firstFree st start stop rule.can_dock with
          | none => none
          | some (some p) =>
            some (.accepted p,
              assign_port st p ⟨mission.mission_id, start, stop, mission.team⟩)
          | some none => some (.rejected "No compatible ports available", st)

/-- The half-open conflict predicate of the spec applied to two stored
records w1, w2: `not (e1 <= s2 or s1 >= e2)`. -/
def conflicts (m1 m2 : StoredMission) : Bool :=
  !(decide (m1.end_time ≤ m2.start_time) || decide (m1.start_time ≥ m2.end_time))

/-- States of the schedule reachable from the initial empty store by any
sequence of `process_docking_request` and clear-all operations. -/
inductive Reachable : Schedule → Prop where
  | init : Reachable DOCKING_PORTS_init
  | step (st : Schedule) (m : MissionRequest) (r : DockResult) (st' : Schedule) :
      Reachable st → process_docking_request st m = some (r, st') → Reachable st'
  | clear (st : Schedule) : Reachable st → Reachable (clear_schedule st)

example : parse_time "2024-03-15T10:00:00Z" = some (encodeTime 2024 3 15 10 0 0) := by
  decide

example : parse_time "2024-03-15" = none := by decide

/-! ### Helper lemmas about the store operations -/

theorem find?_map_pres (g : String × List StoredMission → String × List StoredMission)
    (hg : ∀ e, (g e).1 = e.1) (st : Schedule) (q : String) :
    (st.map g).find? (fun e => e.1 == q) = (st.find? (fun e => e.1 == q)).map g := by
  induction st with
  | nil => rfl
  | cons e st ih =>
    simp only [List.map_cons, List.find?]
    rw [hg e]
    cases h : (e.1 == q) with
    | true => rfl
    | false => simpa using ih

theorem lookupPort_assign (st : Schedule) (p q : String) (m : StoredMission) :
    lookupPort (assign_port st p m) q =
      (lookupPort st q).map (fun l => if q = p then l ++ [m] else l) := by
  have hg : ∀ e : String × List StoredMission,
      ((if e.1 == p then (e.1, e.2 ++ [m]) else e) : String × List StoredMission).1 = e.1 := by
    intro e; split <;> rfl
  unfold lookupPort assign_port
  rw [find?_map_pres _ hg]
  rcases h : st.find? (fun e => e.1 == q) with - | e
  · rw [h]; rfl
  · rw [h]
    have he : e.1 = q := by
      have := List.find?_some h
      simpa using this
    simp only [Option.map_some']
    by_cases hqp : q = p
    · simp [he, hqp]
    · simp [he, hqp]

theorem lookupPort_clear (st : Schedule) (q : String) :
    lookupPort (clear_schedule st) q =
      (lookupPort st q).map (fun _ => ([] : List StoredMission)) := by
  have hg : ∀ e : String × List StoredMission,
      ((e.1, ([] : List StoredMission)) : String × List StoredMission).1 = e.1 := by
    intro e; rfl
  unfold lookupPort clear_schedule
  rw [find?_map_pres _ hg]
  rcases h : st.find? (fun e => e.1 == q) with - | e <;> rw [h] <;> rfl

theorem firstFree_free (st : Schedule) (s e : Int) (ports : List String) (p : String)
    (h : firstFree st s e ports = some (some p)) :
    is_port_free st p s e = some true := by
  induction ports with
  | nil => simp [firstFree] at h
  | cons q rest ih =>
    unfold firstFree at h
    rcases hq : is_port_free st q s e with - | b
    · rw [hq] at h; exact absurd h (by simp)
    · rw [hq] at h
      cases b with
      | true => simp at h; subst h; exact hq
      | false => exact ih (by simpa using h)

theorem firstFree_of_first (st : Schedule) (s e : Int) (l1 l2 : List String) (p : String)
    (hbusy : ∀ q ∈ l1, is_port_free st q s e = some false)
    (hfree : is_port_free st p s e = some true) :
    firstFree st s e (l1 ++ p :: l2) = some (some p) := by
  induction l1 with
  | nil => simp [firstFree, hfree]
  | cons q rest ih =>
    have hq : is_port_free st q s e = some false := hbusy q (by simp)
    simp only [List.cons_append]
    unfold firstFree
    rw [hq]
    exact ih (fun r hr => hbusy r (by simp [hr]))

theorem conflicts_eq_false (a b : StoredMission) :
    conflicts a b = false ↔ (a.end_time ≤ b.start_time ∨ a.start_time ≥ b.end_time) := by
  simp only [conflicts, Bool.not_eq_false', Bool.or_eq_true, decide_eq_true_eq]

theorem conflicts_false_comm (a b : StoredMission) :
    conflicts a b = false ↔ conflicts b a = false := by
  rw [conflicts_eq_false, conflicts_eq_false]
  constructor <;> (intro h; rcases h with h | h)
  · exact Or.inr h
  · exact Or.inl h
  · exact Or.inr h
  · exact Or.inl h

theorem is_port_free_true_iff (st : Schedule) (p : String) (l : List StoredMission)
    (s e : Int) (hl : lookupPort st p = some l) :
    is_port_free st p s e = some true ↔
      ∀ m ∈ l, e ≤ m.start_time ∨ s ≥ m.end_time := by
  simp [is_port_free, hl, List.all_eq_true]

theorem lookupPort_mem (st : Schedule) (q : String) (l : List StoredMission)
    (h : lookupPort st q = some l) : (q, l) ∈ st := by
  unfold lookupPort at h
  rcases hf : st.find? (fun e => e.1 == q) with - | e
  · rw [hf] at h; exact absurd h (by simp)
  · rw [hf] at h
    simp only [Option.map_some', Option.some.injEq] at h
    have hm := List.mem_of_find?_eq_some hf
    have hp := List.find?_some hf
    simp only [beq_iff_eq] at hp
    obtain ⟨k, v⟩ := e
    cases hp
    cases h
    exact hm

/-- The per-port no-overlap property of §3 and §8 of the spec, phrased
over the embedded store. -/
def NoOverlap (st : Schedule) : Prop :=
  ∀ p l, lookupPort st p = some l → l.Pairwise (fun a b => conflicts a b = false)

theorem noOverlap_of_all_empty (st : Schedule)
    (h : ∀ e ∈ st, e.2 = ([] : List StoredMission)) : NoOverlap st := by
  intro p l hl
  have hm := lookupPort_mem st p l hl
  have : l = [] := h (p, l) hm
  subst this
  exact List.Pairwise.nil

theorem noOverlap_assign (st : Schedule) (p : String) (s e : Int) (nm : StoredMission)
    (hfree : is_port_free st p s e = some true)
    (hs : nm.start_time = s) (he : nm.end_time = e)
    (hno : NoOverlap st) : NoOverlap (assign_port st p nm) := by
  intro q l' hl'
  rw [lookupPort_assign] at hl'
  rcases hq : lookupPort st q with - | l
  · rw [hq] at hl'; exact absurd hl' (by simp)
  · rw [hq] at hl'
    simp only [Option.map_some', Option.some.injEq] at hl'
    subst hl'
    by_cases hqp : q = p
    · rw [if_pos hqp]
      subst hqp
      rw [List.pairwise_append]
      refine ⟨hno q l hq, List.pairwise_singleton _ _, ?_⟩
      intro a ha b hb
      have hb' : b = nm := by simpa using hb
      subst hb'
      have := (is_port_free_true_iff st q l s e hq).mp hfree a ha
      rw [conflicts_eq_false, hs, he]
      rcases this with h1 | h1
      · exact Or.inr h1
      · exact Or.inl h1
    · rw [if_neg hqp]
      exact hno q l hq

theorem process_inv (st : Schedule) (m : MissionRequest) (r : DockResult) (st' : Schedule)
    (h : process_docking_request st m = some (r, st')) :
    (st' = st ∧ (r = .rejected "Refueling only available at A1" ∨
                 r = .rejected "No compatible ports available")) ∨
    ∃ p s e, parse_time m.start_time = some s ∧ parse_time m.end_time = some e ∧
      is_port_free st p s e = some true ∧
      r = .accepted p ∧ st' = assign_port st p ⟨m.mission_id, s, e, m.team⟩ := by
  rcases hs : parse_time m.start_time with - | s
  · simp only [process_docking_request, hs] at h
    exact Option.noConfusion h
  · rcases he : parse_time m.end_time with - | e
    · simp only [process_docking_request, hs, he] at h
      exact Option.noConfusion h
    · rcases hr : can_refuel m.requested_port (m.refueling_required.getD false) with - | b
      · simp only [process_docking_request, hs, he, hr] at h
        exact Option.noConfusion h
      · cases b with
        | false =>
          simp only [process_docking_request, hs, he, hr, Option.some.injEq,
            Prod.mk.injEq] at h
          obtain ⟨h1, h2⟩ := h
          exact Or.inl ⟨h2.symm, Or.inl h1.symm⟩
        | true =>
          rcases hrule : lookupRule m.requested_port with - | rule
          · simp only [process_docking_request, hs, he, hr, hrule] at h
            exact Option.noConfusion h
          · rcases hff : firstFree st s e rule.can_dock with - | op
            · simp only [process_docking_request, hs, he, hr, hrule, hff] at h
              exact Option.noConfusion h
            · rcases op with - | p
              · simp only [process_docking_request, hs, he, hr, hrule, hff,
                  Option.some.injEq, Prod.mk.injEq] at h
                obtain ⟨h1, h2⟩ := h
                exact Or.inl ⟨h2.symm, Or.inr h1.symm⟩
              · simp only [process_docking_request, hs, he, hr, hrule, hff,
                  Option.some.injEq, Prod.mk.injEq] at h
                obtain ⟨h1, h2⟩ := h
                refine Or.inr ⟨p, s, e, rfl, rfl, firstFree_free st s e rule.can_dock p hff,
                  h1.symm, h2.symm⟩

theorem reachable_no_overlap (st : Schedule) (h : Reachable st) : NoOverlap st := by
  induction h with
  | init =>
    refine noOverlap_of_all_empty _ ?_
    intro e he
    simp only [DOCKING_PORTS_init, List.mem_cons, List.not_mem_nil, or_false] at he
    rcases he with h | h | h <;> (subst h; rfl)
  | step st m r st' hr hp ih =>
    rcases process_inv st m r st' hp with ⟨heq, -⟩ | ⟨p, s, e, -, -, hfree, -, heq⟩
    · rw [heq]; exact ih
    · rw [heq]; exact noOverlap_assign st p s e _ hfree rfl rfl ih
  | clear st hr ih =>
    intro p l hl
    rw [lookupPort_clear] at hl
    rcases hq : lookupPort st p with - | l0
    · rw [hq] at hl; exact absurd hl (by simp)
    · rw [hq] at hl
      simp only [Option.map_some', Option.some.injEq] at hl
      subst hl
      exact List.Pairwise.nil

/-! ### Concrete fixtures used by witnesses and counterexamples -/

def t10 : Int := encodeTime 2024 3 15 10 0 0
def t11 : Int := encodeTime 2024 3 15 11 0 0
def t12 : Int := encodeTime 2024 3 15 12 0 0
def t13 : Int := encodeTime 2024 3 15 13 0 0
def t14 : Int := encodeTime 2024 3 15 14 0 0

def misA : MissionRequest :=
  ⟨"M1", "A1", "2024-03-15T10:00:00Z", "2024-03-15T12:00:00Z", "alpha", some false⟩
def misB : MissionRequest :=
  ⟨"M2", "A1", "2024-03-15T12:00:00Z", "2024-03-15T14:00:00Z", "beta", some false⟩
def misC : MissionRequest :=
  ⟨"M3", "A1", "2024-03-15T11:00:00Z", "2024-03-15T13:00:00Z", "gamma", some false⟩
def misRef : MissionRequest :=
  ⟨"M4", "A2", "2024-03-15T10:00:00Z", "2024-03-15T12:00:00Z", "delta", some true⟩

def recA : StoredMission := ⟨"M1", t10, t12, "alpha"⟩
def recB : StoredMission := ⟨"M2", t12, t14, "beta"⟩

def stA : Schedule := [("A1", [recA]), ("A2", []), ("B1", [])]
def stAB : Schedule := [("A1", [recA, recB]), ("A2", []), ("B1", [])]

theorem reachable_stA : Reachable stA :=
  Reachable.step DOCKING_PORTS_init misA (.accepted "A1") stA Reachable.init (by decide)

theorem reachable_stAB : Reachable stAB :=
  Reachable.step stA misB (.accepted "A1") stAB reachable_stA (by decide)

/-! ### Claim theorems -/

/-- Claim C1: per-port no-overlap invariant — starting from the empty
schedule, after any sequence of process_docking_request and clear-all
operations, for every port p and every two distinct missions committed
to p the half-open conflict predicate `not (e1 <= s2 or s1 >= e2)` is
false. -/
theorem claim1_per_port_no_overlap (st : Schedule) (h : Reachable st)
    (p : String) (l : List StoredMission) (hl : lookupPort st p = some l)
    (i j : Fin l.length) (hij : i ≠ j) :
    conflicts (l.get i) (l.get j) = false := by
  have hpw := reachable_no_overlap st h p l hl
  rcases Nat.lt_or_ge i.val j.val with hlt | hge
  · exact List.pairwise_iff_get.mp hpw i j hlt
  · have hne : j.val < i.val :=
      Nat.lt_of_le_of_ne hge (fun hh => hij (Fin.ext hh.symm))
    exact (conflicts_false_comm _ _).mp (List.pairwise_iff_get.mp hpw j i hne)

/-- Witness for C1: a reachable schedule with two missions on port A1,
where the conflict predicate evaluates to false on the distinct pair. -/
theorem claim1_per_port_no_overlap_witness :
    conflicts recA recB = false :=
  claim1_per_port_no_overlap stAB reachable_stAB "A1" [recA, recB] (by decide)
    ⟨0, by decide⟩ ⟨1, by decide⟩ (by decide)

/-- Claim C2: first-fit determinism — for a mission that passes the
refueling gate, the candidate list of the requested port is scanned in
list order and the mission is assigned to the first port that is free;
in particular if the first candidate is free it always wins. -/
theorem claim2_first_fit (st : Schedule) (m : MissionRequest) (s e : Int)
    (rule : PortRule) (l1 l2 : List String) (p : String)
    (hs : parse_time m.start_time = some s)
    (he : parse_time m.end_time = some e)
    (href : can_refuel m.requested_port (m.refueling_required.getD false) = some true)
    (hrule : lookupRule m.requested_port = some rule)
    (hsplit : rule.can_dock = l1 ++ p :: l2)
    (hbusy : ∀ q ∈ l1, is_port_free st q s e = some false)
    (hfree : is_port_free st p s e = some true) :
    process_docking_request st m =
      some (.accepted p, assign_port st p ⟨m.mission_id, s, e, m.team⟩) := by
  have hff := firstFree_of_first st s e l1 l2 p hbusy hfree
  simp only [process_docking_request, hs, he, href, hrule, hsplit, hff]

/-- Witness for C2: requesting A1 while A1 is occupied assigns the next
candidate B1 (first-fit over the list ["A1", "B1"]). -/
theorem claim2_first_fit_witness :
    process_docking_request stA misC =
      some (.accepted "B1", assign_port stA "B1" ⟨"M3", t11, t13, "gamma"⟩) :=
  claim2_first_fit stA misC t11 t13 ⟨["A1", "B1"], true⟩ ["A1"] [] "B1"
    (by decide) (by decide) (by decide) (by decide) (by decide)
    (by decide) (by decide)

/-- Claim C3: refueling-gate precedence — a mission requiring refueling
whose requested port is not refuel-capable is rejected for every
schedule state (in particular when every port is free), and the
schedule is returned unchanged. -/
theorem claim3_refueling_gate (st : Schedule) (m : MissionRequest) (s e : Int)
    (rule : PortRule)
    (hs : parse_time m.start_time = some s)
    (he : parse_time m.end_time = some e)
    (hreq : m.refueling_required.getD false = true)
    (hrule : lookupRule m.requested_port = some rule)
    (hcap : rule.refuel = false) :
    process_docking_request st m =
      some (.rejected "Refueling only available at A1", st) := by
  have hcr : can_refuel m.requested_port (m.refueling_required.getD false) =
      some false := by
    rw [hreq]
    simp [can_refuel, hrule, hcap]
  simp only [process_docking_request, hs, he, hcr]

/-- Witness for C3: the refueling request for A2 is rejected on the
fully empty schedule, which stays unchanged. -/
theorem claim3_refueling_gate_witness :
    process_docking_request DOCKING_PORTS_init misRef =
      some (.rejected "Refueling only available at A1", DOCKING_PORTS_init) :=
  claim3_refueling_gate DOCKING_PORTS_init misRef t10 t12 ⟨["A2", "B1"], false⟩
    (by decide) (by decide) (by decide) (by decide) (by decide)

/-- Claim C4: atomicity and committed-record shape — a call either
leaves every port's sequence as it was, or appends exactly one record,
of exactly the shape {mission_id, start_time, end_time, team}, to
exactly the assigned port's sequence. -/
theorem claim4_atomicity (st : Schedule) (m : MissionRequest) (res : DockResult)
    (st' : Schedule)
    (h : process_docking_request st m = some (res, st')) :
    (∀ q, lookupPort st' q = lookupPort st q) ∨
    ∃ p s e, res = .accepted p ∧
      parse_time m.start_time = some s ∧ parse_time m.end_time = some e ∧
      lookupPort st' p =
        (lookupPort st p).map (fun l => l ++ [⟨m.mission_id, s, e, m.team⟩]) ∧
      ∀ q, q ≠ p → lookupPort st' q = lookupPort st q := by
  rcases process_inv st m res st' h with ⟨heq, -⟩ | ⟨p, s, e, hs, he, hfree, hres, heq⟩
  · subst heq; exact Or.inl (fun q => rfl)
  · subst heq
    refine Or.inr ⟨p, s, e, hres, hs, he, ?_, ?_⟩
    · rw [lookupPort_assign]
      rcases hq : lookupPort st p with - | l
      · rfl
      · simp
    · intro q hqp
      rw [lookupPort_assign]
      rcases hq : lookupPort st q with - | l
      · rfl
      · simp [hqp]

/-- Witness for C4: the accepting call on the empty schedule appends the
four-field record for M1 to A1 and leaves A2 and B1 unchanged. -/
theorem claim4_atomicity_witness :
    (∀ q, lookupPort stA q = lookupPort DOCKING_PORTS_init q) ∨
    ∃ p s e, DockResult.accepted "A1" = DockResult.accepted p ∧
      parse_time misA.start_time = some s ∧ parse_time misA.end_time = some e ∧
      lookupPort stA p =
        (lookupPort DOCKING_PORTS_init p).map
          (fun l => l ++ [⟨misA.mission_id, s, e, misA.team⟩]) ∧
      ∀ q, q ≠ p → lookupPort stA q = lookupPort DOCKING_PORTS_init q :=
  claim4_atomicity DOCKING_PORTS_init misA (.accepted "A1") stA (by decide)

/-- Counterexample for C5: the refueling-gate rejection carries the
reason string "Refueling only available at A1", which is neither of the
two strings the claim asserts. -/
theorem claim5_counterexample :
    process_docking_request DOCKING_PORTS_init misRef =
      some (.rejected "Refueling only available at A1", DOCKING_PORTS_init) ∧
    "Refueling only available at A1" ≠ "refueling unsupported at requested port" ∧
    "Refueling only available at A1" ≠ "no compatible ports available" :=
  ⟨by decide, by decide, by decide⟩

/-- Claim C5 (amended): whenever process_docking_request returns a
rejected result, the reason is exactly one of the two strings
"Refueling only available at A1" (refueling-gate rejection) and
"No compatible ports available" (no-free-port rejection). -/
theorem claim5_amended_reason_set (st : Schedule) (m : MissionRequest) (r : String)
    (st' : Schedule)
    (h : process_docking_request st m = some (.rejected r, st')) :
    r = "Refueling only available at A1" ∨ r = "No compatible ports available" := by
  rcases process_inv st m (.rejected r) st' h with ⟨-, hr | hr⟩ | ⟨p, s, e, -, -, -, hres, -⟩
  · injection hr with h1
    exact Or.inl h1
  · injection hr with h1
    exact Or.inr h1
  · exact DockResult.noConfusion hres

/-- Witness for C5 (amended): instantiated at the concrete refueling
rejection. -/
theorem claim5_amended_reason_set_witness :
    "Refueling only available at A1" = "Refueling only available at A1" ∨
    "Refueling only available at A1" = "No compatible ports available" :=
  claim5_amended_reason_set DOCKING_PORTS_init misRef
    "Refueling only available at A1" DOCKING_PORTS_init (by decide)

def misInv : MissionRequest :=
  ⟨"M9", "A1", "2024-03-15T12:00:00Z", "2024-03-15T10:00:00Z", "epsilon", none⟩

def stInv : Schedule := [("A1", [⟨"M9", t12, t10, "epsilon"⟩]), ("A2", []), ("B1", [])]

/-- Counterexample for C6: a mission whose parsed times satisfy
start >= end (start t12, end t10) is not failed with any request-level
error — it is accepted and committed to A1. -/
theorem claim6_counterexample :
    parse_time misInv.start_time = some t12 ∧
    parse_time misInv.end_time = some t10 ∧
    t10 < t12 ∧
    process_docking_request DOCKING_PORTS_init misInv =
      some (.accepted "A1", stInv) :=
  ⟨by decide, by decide, by decide, by decide⟩

/-- Claim C6 (amended): an unparsable start_time or end_time makes
process_docking_request fail with a request-level error (the parser's
exception, modelled as none) distinct from a scheduling rejection, and
no mission is committed; parsed times with start >= end, however, are
not validated and such a mission can be committed. -/
theorem claim6_amended_unparsable (st : Schedule) (m : MissionRequest)
    (h : parse_time m.start_time = none ∨ parse_time m.end_time = none) :
    process_docking_request st m = none := by
  rcases h with h | h
  · simp only [process_docking_request, h]
  · rcases hs : parse_time m.start_time with - | s
    · simp only [process_docking_request, hs]
    · simp only [process_docking_request, hs, h]

def misBadTime : MissionRequest :=
  ⟨"M7", "A1", "not-a-timestamp", "2024-03-15T10:00:00Z", "zeta", none⟩

/-- Witness for C6 (amended): an unparsable start_time aborts the call
with the request-level failure. -/
theorem claim6_amended_unparsable_witness :
    process_docking_request DOCKING_PORTS_init misBadTime = none :=
  claim6_amended_unparsable DOCKING_PORTS_init misBadTime (Or.inl (by decide))

/-- Counterexample for C7: on the reachable schedule with mission
[t10, t12) committed to A1, the empty window [t11, t11) is reported as
conflicting — is_port_free returns false, not true. -/
theorem claim7_counterexample :
    is_port_free stAB "A1" t11 t11 = some false ∧
    (some false : Option Bool) ≠ some true :=
  ⟨by decide, by decide⟩

/-- Claim C7 (amended): for a configured port p, the degenerate window
[t, t) is reported free exactly when no committed interval [s, e) on p
has s < t < e; an empty window strictly inside a committed interval is
reported as a conflict. -/
theorem claim7_amended_empty_window (st : Schedule) (p : String)
    (l : List StoredMission) (t : Int) (hl : lookupPort st p = some l) :
    is_port_free st p t t = some true ↔
      ∀ m ∈ l, t ≤ m.start_time ∨ t ≥ m.end_time :=
  is_port_free_true_iff st p l t t hl

/-- Witness for C7 (amended): at the boundary time t14 (the end of the
last committed interval on A1) the empty window is free. -/
theorem claim7_amended_empty_window_witness :
    is_port_free stAB "A1" t14 t14 = some true :=
  (claim7_amended_empty_window stAB "A1" [recA, recB] t14 (by decide)).mpr
    (by decide)

/-- Claim C8: half-open adjacency — with a single committed interval
[s, e) on port p, a request window starting exactly at e does not
conflict: is_port_free returns true. -/
theorem claim8_half_open_adjacency (st : Schedule) (p mid team : String)
    (s e e2 : Int) (hl : lookupPort st p = some [⟨mid, s, e, team⟩])
    (h2 : e < e2) :
    is_port_free st p e e2 = some true := by
  simp [is_port_free, hl]

/-- Witness for C8: the window [t12, t14) adjacent to the committed
[t10, t12) on A1 is free. -/
theorem claim8_half_open_adjacency_witness :
    is_port_free stA "A1" t12 t14 = some true :=
  claim8_half_open_adjacency stA "A1" "M1" "alpha" t10 t12 t14
    (by decide) (by decide)

theorem clear_schedule_of_empty :
    ∀ st : Schedule, (∀ e ∈ st, e.2 = ([] : List StoredMission)) →
      clear_schedule st = st := by
  intro st
  induction st with
  | nil => intro h; rfl
  | cons e st ih =>
    intro h
    obtain ⟨k, v⟩ := e
    have hv : v = [] := h (k, v) (by simp)
    subst hv
    have hrest := ih (fun e he => h e (List.mem_cons_of_mem _ he))
    simp only [clear_schedule, List.map_cons] at hrest ⊢
    rw [hrest]

/-- Claim C9: clear-all idempotence — clearing leaves every port's
sequence empty, clearing twice equals clearing once, and clearing an
already-empty schedule is a no-op. -/
theorem claim9_clear_all (st : Schedule) :
    (∀ q l, lookupPort (clear_schedule st) q = some l → l = []) ∧
    clear_schedule (clear_schedule st) = clear_schedule st ∧
    ((∀ e ∈ st, e.2 = ([] : List StoredMission)) → clear_schedule st = st) := by
  refine ⟨?_, ?_, clear_schedule_of_empty st⟩
  · intro q l hl
    rw [lookupPort_clear] at hl
    rcases hq : lookupPort st q with - | l0
    · rw [hq] at hl; exact absurd hl (by simp)
    · rw [hq] at hl
      simp only [Option.map_some', Option.some.injEq] at hl
      exact hl.symm
  · unfold clear_schedule
    rw [List.map_map]
    rfl

/-- Witness for C9: idempotence on the two-mission schedule and the
no-op on the initial empty schedule. -/
theorem claim9_clear_all_witness :
    clear_schedule (clear_schedule stAB) = clear_schedule stAB ∧
    clear_schedule DOCKING_PORTS_init = DOCKING_PORTS_init :=
  ⟨(claim9_clear_all stAB).2.1, (claim9_clear_all DOCKING_PORTS_init).2.2 (by decide)⟩

/-- Claim C10: can_refuel totality — for every port identifier string,
including unconfigured ones, can_refuel p false returns true without
failing; and for every configured port, can_refuel p true equals the
port's refuel flag. -/
theorem claim10_can_refuel_total :
    (∀ p : String, can_refuel p false = some true) ∧
    (∀ p rule, lookupRule p = some rule → can_refuel p true = some rule.refuel) := by
  refine ⟨fun p => rfl, fun p rule h => ?_⟩
  simp [can_refuel, h]

/-- Witness for C10: an unconfigured identifier with the flag off, and
the configured refuel-capable port A1 with the flag on. -/
theorem claim10_can_refuel_total_witness :
    can_refuel "XQ-99" false = some true ∧ can_refuel "A1" true = some true := by
  refine ⟨claim10_can_refuel_total.1 "XQ-99", ?_⟩
  have h := claim10_can_refuel_total.2 "A1" ⟨["A1", "B1"], true⟩ (by decide)
  simpa using h
